import Mathlib

/-!
Shallow embedding of the ioBroker benchmark adapter
(`src/lib/activeTests/objectsCreation.ts`, class `Benchmark`).

Modelling conventions:
* JavaScript numbers are modelled as exact rationals.  A JS value that is
  not a finite number (`NaN`, `±Infinity`) is modelled as `none` in
  `Option ℚ` (abbreviated `JSN`); the only sources of such values in the
  embedded code are `0/0` (mean of an empty series), division by zero and
  arithmetic on an already non-finite value, which the `js*` operations
  propagate exactly as JS does.  Values produced by `Math.sqrt` are
  irrational in general, so that one function and everything downstream of
  it lives in `Option ℝ`.
* Free-form message payloads (`obj.message`) are modelled by the
  inductive `JSVal`; property access on `null`/`undefined` raises a
  `TypeError`, which the model renders as `Except.error`.
* The adapter's asynchronous code is single-threaded and cooperative;
  interleaving is modelled at the granularity of suspension points
  (`await`): a block of synchronous statements between two `await`s is one
  atomic step.
-/

namespace Benchmark

/-- Model of a free-form JavaScript value, as carried by `obj.message`.
Numbers are exact rationals (see the module docstring). -/
inductive JSVal where
  | null
  | undefined
  | num (q : ℚ)
  | str (s : String)
  | boolean (b : Bool)
  | arr (elems : List JSVal)
  | obj (fields : List (String × JSVal))

/-- JS `typeof v === 'object'`: true for `null`, arrays and plain objects. -/
def JSVal.typeofObject : JSVal → Bool
  | .null => true
  | .arr _ => true
  | .obj _ => true
  | _ => false

/-- JS `Array.isArray v`. -/
def JSVal.isArray : JSVal → Bool
  | .arr _ => true
  | _ => false

/-- JS strict equality `v === 's'` against a string literal. -/
def JSVal.eqStr : JSVal → String → Bool
  | .str t, s => t == s
  | _, _ => false

/-- JS property access `v.k`.  On `null` or `undefined` this throws a
`TypeError` (`Except.error`); on objects it returns the field or
`undefined`; on any other value it returns `undefined`. -/
def JSVal.getField : JSVal → String → Except Unit JSVal
  | .null, _ => .error ()
  | .undefined, _ => .error ()
  | .obj fields, k => .ok ((fields.lookup k).getD .undefined)
  | _, _ => .ok .undefined

/-- Numeric elements of an array value (the declared payload type of the
monitoring arrays is `number[]`; elements outside that type are outside the
model and dropped). -/
def JSVal.numElems : JSVal → List ℚ
  | .arr elems => elems.filterMap fun v =>
      match v with
      | .num q => some q
      | _ => none
  | _ => []

/-- A JS number: `some q` is a finite value, `none` is NaN/±Infinity. -/
abbrev JSN := Option ℚ

/-- JS addition, strict in non-finite operands. -/
def jsAdd (a b : JSN) : JSN := do pure ((← a) + (← b))

/-- JS subtraction, strict in non-finite operands. -/
def jsSub (a b : JSN) : JSN := do pure ((← a) - (← b))

/-- JS multiplication, strict in non-finite operands. -/
def jsMul (a b : JSN) : JSN := do pure ((← a) * (← b))

/-- JS division.  `x/0` (including `0/0`) is not a finite number. -/
def jsDiv (a b : JSN) : JSN := do
  let x ← a
  let y ← b
  if y = 0 then none else pure (x / y)

/-- The `reduce((partialSum, x) => partialSum + x, 0)` sum used by
`calcMean`, at the possibly-non-finite carrier. -/
def jsSum (l : List JSN) : JSN := l.foldl jsAdd (some 0)

/-- `Benchmark.calcMean` (source lines 416-419): `sum / arr.length`.
On the empty list this is `0/0`, i.e. NaN (`none`). -/
def calcMean (arr : List ℚ) : JSN :=
  jsDiv (jsSum (arr.map some)) (some ((arr.length : ℚ)))

/-- JS `Math.sqrt`, on the NaN-aware carrier: NaN on NaN and on negative
input, otherwise the real square root. -/
noncomputable def jsSqrt (a : JSN) : Option ℝ :=
  a.bind fun v => if v < 0 then none else some (Real.sqrt (v : ℝ))

/-- `Benchmark.calcStd` (source lines 424-436): square root of the mean of
the squared deviations from the mean.  The inner mean of the squared-diff
list is `calcMean`'s body at the possibly-NaN carrier, since a NaN mean
infects every squared difference. -/
noncomputable def calcStd (arr : List ℚ) : Option ℝ :=
  let mean := calcMean arr
  let sqDiffs := arr.map fun value => jsMul (jsSub (some value) mean) (jsSub (some value) mean)
  let avgSqDiff := jsDiv (jsSum sqDiffs) (some ((sqDiffs.length : ℚ)))
  jsSqrt avgSqDiff

/-- JS `Math.round`: nearest integer, ties toward `+∞` (ECMA-262
`Math.round`), i.e. `⌊x + 1/2⌋`. -/
def jsMathRound (q : ℚ) : ℚ := (⌊q + 1/2⌋ : ℤ)

/-- `Benchmark.round` (source lines 508-510): `Math.round(x * 100) / 100`,
at the finite-rational carrier. -/
def roundVal (q : ℚ) : ℚ := jsMathRound (q * 100) / 100

/-- `Benchmark.round` lifted to possibly-NaN inputs (`Math.round(NaN)` is
NaN). -/
def roundOpt (a : JSN) : JSN := a.map roundVal

/-- `Benchmark.round` at the real-valued carrier (used downstream of
`Math.sqrt`). -/
noncomputable def roundR (x : ℝ) : ℝ := ((⌊x * 100 + 1/2⌋ : ℤ) : ℝ) / 100

/-- `Benchmark.round` on possibly-NaN reals. -/
noncomputable def roundOptR (a : Option ℝ) : Option ℝ := a.map roundR

/-- JS division at the real carrier (for `iterations / timeStd`). -/
noncomputable def jsDivR (a b : Option ℝ) : Option ℝ := do
  let x ← a
  let y ← b
  if y = 0 then none else pure (x / y)

/-- The per-remote-instance accumulator `RequestedMonitoringEntry`
(source lines 39-44). -/
structure RequestedMonitoringEntry where
  time : List ℚ
  cpuStats : List ℚ
  memStats : List ℚ
  eventLoopLags : List ℚ
deriving DecidableEq

/-- The empty accumulator created on first contact
(`{cpuStats: [], memStats: [], eventLoopLags: [], time: []}`, line 298). -/
def emptyEntry : RequestedMonitoringEntry :=
  { time := [], cpuStats := [], memStats := [], eventLoopLags := [] }

/-- The ten scalar fields of `SummaryState` (source lines 46-58).  Mean
fields stay rational; Std fields pass through `Math.sqrt` and are real. -/
structure SummaryBase where
  timeMean : JSN
  timeStd : Option ℝ
  memMean : JSN
  memStd : Option ℝ
  cpuMean : JSN
  cpuStd : Option ℝ
  eventLoopLagMean : JSN
  eventLoopLagStd : Option ℝ
  actionsPerSecondMean : JSN
  actionsPerSecondStd : Option ℝ

/-- The per-secondary summary built in the loop at source lines 237-254.
`k` is `Object.keys(this.requestedMonitoring).length`, evaluated while the
loop runs and hence the total number of reporting instances. -/
noncomputable def secondarySummary (iterations : ℚ) (k : ℕ) (e : RequestedMonitoringEntry) :
    SummaryBase :=
  let timeMean := roundOpt (calcMean e.time)
  let timeStd := roundOptR (calcStd e.time)
  { cpuMean := roundOpt (calcMean e.cpuStats)
    cpuStd := roundOptR (calcStd e.cpuStats)
    memMean := roundOpt (calcMean e.memStats)
    memStd := roundOptR (calcStd e.memStats)
    eventLoopLagMean := roundOpt (calcMean e.eventLoopLags)
    eventLoopLagStd := roundOptR (calcStd e.eventLoopLags)
    timeMean := timeMean
    timeStd := timeStd
    actionsPerSecondMean := roundOpt (jsDiv (jsDiv (some iterations) timeMean) (some ((k : ℚ))))
    actionsPerSecondStd :=
      if timeStd = some 0 then some 0
      else roundOptR (jsDivR (jsDivR (some ((iterations : ℝ))) timeStd) (some ((k : ℝ)))) }

/-- The `for (const instance of Object.keys(this.requestedMonitoring))`
loop (source lines 237-254): one `secondarySummary` per reporting
instance, all with the same reporting count. -/
noncomputable def buildSecondaries (iterations : ℚ) (rm : List (String × RequestedMonitoringEntry)) :
    List (String × SummaryBase) :=
  rm.map fun p => (p.1, secondarySummary iterations rm.length p.2)

/-- `SummaryState` (source lines 46-58, 223-254): the scalar fields plus
the optional `secondaries` map, present exactly when at least one remote
instance reported monitoring data. -/
structure SummaryState extends SummaryBase where
  secondaries : Option (List (String × SummaryBase))

/-- The summary reduction of one workload's collected series (source lines
190-254): every mean/std rounded to two decimals,
`actionsPerSecondMean = round(iterations / timeMean)` and
`actionsPerSecondStd = timeStd !== 0 ? round(iterations / timeStd) : 0`,
plus the per-secondary summaries. -/
noncomputable def computeSummary (iterations : ℚ) (times cpu mem lags : List ℚ)
    (rm : List (String × RequestedMonitoringEntry)) : SummaryState :=
  let timeMean := roundOpt (calcMean times)
  let timeStd := roundOptR (calcStd times)
  { timeMean := timeMean
    timeStd := timeStd
    cpuMean := roundOpt (calcMean cpu)
    cpuStd := roundOptR (calcStd cpu)
    memMean := roundOpt (calcMean mem)
    memStd := roundOptR (calcStd mem)
    eventLoopLagMean := roundOpt (calcMean lags)
    eventLoopLagStd := roundOptR (calcStd lags)
    actionsPerSecondMean := roundOpt (jsDiv (some iterations) timeMean)
    actionsPerSecondStd :=
      if timeStd = some 0 then some 0
      else roundOptR (jsDivR (some ((iterations : ℝ))) timeStd)
    secondaries := if rm.isEmpty then none else some (buildSecondaries iterations rm) }

/-- The adapter configuration surface (`iterations`, `epochs`,
`secondaryMode`, `isolatedRun`); the two counts are JS numbers. -/
structure AdapterConfig where
  iterations : ℚ
  epochs : ℚ
  secondaryMode : Bool
  isolatedRun : Bool
deriving DecidableEq

/-- The defaulting at source lines 115-116:
`config.iterations = config.iterations || 10000` and
`config.epochs = config.epochs || 5` (`0` is falsy). -/
def effConfig (c : AdapterConfig) : AdapterConfig :=
  { c with
    iterations := if c.iterations = 0 then 10000 else c.iterations
    epochs := if c.epochs = 0 then 5 else c.epochs }

/-- Number of iterations of a JS loop `for (let i = 0; i < n; i++)` whose
bound `n` is an arbitrary number. -/
def jsLoopCount (n : ℚ) : ℕ := if n ≤ 0 then 0 else (⌈n⌉ : ℤ).toNat

/-- Number of iterations of the epoch loop
`for (let j = 1; j <= epochs; j++)` (source line 161). -/
def epochLoopCount (e : ℚ) : ℕ := if e < 1 then 0 else (⌊e⌋ : ℤ).toNat

/-- Lookup in a JS-object-as-map (`this.cpuStats[key]` etc.). -/
def getK {α : Type} (m : List (String × α)) (k : String) : Option α := m.lookup k

/-- Key assignment in a JS-object-as-map (`this.cpuStats[key] = v`). -/
def setK {α : Type} (m : List (String × α)) (k : String) (v : α) : List (String × α) :=
  (k, v) :: m.filter fun p => p.1 != k

/-- Key removal from a JS-object-as-map (`delete this.cpuStats[key]`). -/
def delK {α : Type} (m : List (String × α)) (k : String) : List (String × α) :=
  m.filter fun p => p.1 != k

/-- The keys of the workload registry `allTests` (`src/lib/allTests.ts`). -/
def allTestNames : List String :=
  ["setStates", "statesSubscription", "statesDeletion", "idle", "objectsCreation",
   "setStatesNonStrict"]

/-- The mutable fields of the `Benchmark` adapter touched by the message
handler and the scheduler, plus two instrumentation fields (`executing`,
`measuring`) recording which phase the process is in; the code itself has
no such variables, they only name the "during `execute()`" and "during a
measuring session" windows of the marker invariant. -/
structure BenchState where
  activeTest : String
  monitoringActive : Bool
  cpuStats : List (String × List ℚ)
  memStats : List (String × List ℚ)
  internalEventLoopLags : List (String × List ℚ)
  requestedMonitoring : List (String × RequestedMonitoringEntry)
  requestedMonitoringStartTime : Option ℚ
  executing : Option String
  measuring : Bool
deriving DecidableEq

/-- The adapter state right after the constructor (source lines 80-85). -/
def initState : BenchState :=
  { activeTest := "none"
    monitoringActive := false
    cpuStats := []
    memStats := []
    internalEventLoopLags := []
    requestedMonitoring := []
    requestedMonitoringStartTime := none
    executing := none
    measuring := false }

/-- An inbound `ioBroker.Message`: sender id, command string, free-form
payload. -/
structure MsgIn where
  sender : String
  command : String
  message : JSVal

/-- A storage operation performed by the secondary-mode handler. -/
inductive StorageOp where
  | setObject (id : String)
  | delObject (id : String)
  | setState (id : String) (val : ℚ)
  | delState (id : String)
deriving DecidableEq

/-- Ops of the loop `for (let i = 0; i < n; i++) setObjectAsync('test.'+i, …)`
(source lines 325-337). -/
def setObjectOps (n : ℚ) : List StorageOp :=
  (List.range (jsLoopCount n)).map fun i => .setObject ("test." ++ toString i)

/-- Ops of the deletion loop at source lines 338-342. -/
def delObjectOps (n : ℚ) : List StorageOp :=
  (List.range (jsLoopCount n)).map fun i => .delObject ("test." ++ toString i)

/-- Ops of the loop `setStateAsync('test.'+i, i, true)` (source lines 347-351). -/
def setStateOps (n : ℚ) : List StorageOp :=
  (List.range (jsLoopCount n)).map fun i => .setState ("test." ++ toString i) ((i : ℚ))

/-- Ops of the state-deletion loop at source lines 352-356. -/
def delStateOps (n : ℚ) : List StorageOp :=
  (List.range (jsLoopCount n)).map fun i => .delState ("test." ++ toString i)

/-- Everything observable about one delivery of an inbound message: the
adapter state afterwards, the storage ops performed, the acknowledgement
replies (`sendTo(obj.from, obj.command, {}, obj.callback)`), the
monitoring reports (`sendToAsync('benchmark.0', 'requestedMonitoring', …)`),
which test run was fired off (not awaited), and whether the handler threw
before finishing. -/
structure HandlerOutput where
  state : BenchState
  ops : List StorageOp
  acks : List (String × String)
  reports : List (String × String × RequestedMonitoringEntry)
  triggeredRun : Option (List String)
  threw : Bool
deriving DecidableEq

/-- Normal exit of `onMessage`: the single acknowledgement of source line
399 is sent. -/
def ackOut (s : BenchState) (m : MsgIn) (ops : List StorageOp)
    (reports : List (String × String × RequestedMonitoringEntry))
    (trig : Option (List String)) : HandlerOutput :=
  { state := s, ops := ops, acks := [(m.sender, m.command)], reports := reports,
    triggeredRun := trig, threw := false }

/-- Abrupt exit of `onMessage`: a `TypeError` escaped, so line 399 never
ran and no acknowledgement was sent. -/
def throwOut (s : BenchState) (ops : List StorageOp) : HandlerOutput :=
  { state := s, ops := ops, acks := [], reports := [], triggeredRun := none, threw := true }

/-- `Benchmark.onMessage` (source lines 285-400).  `now` is the value of
the process clock (seconds) at delivery time; the elapsed time computed by
`stopMeasuring` from `process.hrtime(start)` is `now - start` (the exact
float formatting of `join('.')` is outside the model).  Property access on
a `null` payload throws a `TypeError`, modelled by `throwOut`. -/
def onMessage (cfg : AdapterConfig) (now : ℚ) (s : BenchState) (m : MsgIn) : HandlerOutput :=
  if !cfg.secondaryMode then
    if m.command = "test" then
      ackOut s m [] [] (some allTestNames)
    else if m.command ∈ allTestNames then
      ackOut s m [] [] (some [m.command])
    else if m.command = "requestedMonitoring" then
      let rm1 := if (getK s.requestedMonitoring m.sender).isNone
                 then setK s.requestedMonitoring m.sender emptyEntry
                 else s.requestedMonitoring
      if m.message.typeofObject then
        match m.message.getField "cpuStats", m.message.getField "memStats",
              m.message.getField "eventLoopLags", m.message.getField "time" with
        | .ok f1, .ok f2, .ok f3, .ok f4 =>
          let e0 := (getK rm1 m.sender).getD emptyEntry
          let e1 := if f1.isArray then { e0 with cpuStats := e0.cpuStats ++ f1.numElems } else e0
          let e2 := if f2.isArray then { e1 with memStats := e1.memStats ++ f2.numElems } else e1
          let e3 := if f3.isArray then
              { e2 with eventLoopLags := e2.eventLoopLags ++ f3.numElems } else e2
          let e4 := if f4.isArray then { e3 with time := e3.time ++ f4.numElems } else e3
          ackOut { s with requestedMonitoring := setK rm1 m.sender e4 } m [] [] none
        | _, _, _, _ =>
          throwOut { s with requestedMonitoring := rm1 } []
      else
        ackOut { s with requestedMonitoring := rm1 } m [] [] none
    else
      ackOut s m [] [] none
  else
    if m.command = "objects" then
      if m.message.typeofObject then
        match m.message.getField "cmd", m.message.getField "n" with
        | .ok c, .ok nv =>
          if c.eqStr "set" then
            match nv with
            | .num n => ackOut s m (setObjectOps n) [] none
            | _ => ackOut s m [] [] none
          else if c.eqStr "del" then
            match nv with
            | .num n => ackOut s m (delObjectOps n) [] none
            | _ => ackOut s m [] [] none
          else ackOut s m [] [] none
        | _, _ => throwOut s []
      else ackOut s m [] [] none
    else if m.command = "states" then
      if m.message.typeofObject then
        match m.message.getField "cmd", m.message.getField "n" with
        | .ok c, .ok nv =>
          if c.eqStr "set" then
            match nv with
            | .num n => ackOut s m (setStateOps n) [] none
            | _ => ackOut s m [] [] none
          else if c.eqStr "del" then
            match nv with
            | .num n => ackOut s m (delStateOps n) [] none
            | _ => ackOut s m [] [] none
          else ackOut s m [] [] none
        | _, _ => throwOut s []
      else ackOut s m [] [] none
    else if m.command = "startMeasuring" then
      ackOut
        { s with
          activeTest := "requestedMonitoring"
          monitoringActive := true
          cpuStats := setK s.cpuStats "requestedMonitoring" []
          memStats := setK s.memStats "requestedMonitoring" []
          internalEventLoopLags := setK s.internalEventLoopLags "requestedMonitoring" []
          requestedMonitoringStartTime := some now
          measuring := true } m [] [] none
    else if m.command = "stopMeasuring" then
      let reports :=
        match s.requestedMonitoringStartTime with
        | some st =>
          [("benchmark.0", "requestedMonitoring",
            ({ eventLoopLags := (getK s.internalEventLoopLags "requestedMonitoring").getD []
               memStats := (getK s.memStats "requestedMonitoring").getD []
               cpuStats := (getK s.cpuStats "requestedMonitoring").getD []
               time := [now - st] } : RequestedMonitoringEntry))]
        | none => []
      ackOut
        { s with
          activeTest := "none"
          monitoringActive := false
          measuring := false
          internalEventLoopLags := delK s.internalEventLoopLags "requestedMonitoring"
          memStats := delK s.memStats "requestedMonitoring"
          cpuStats := delK s.cpuStats "requestedMonitoring"
          requestedMonitoringStartTime := none } m [] reports none
    else
      ackOut s m [] [] none

/-- `Benchmark.measureEventLoopLag` (source lines 470-502): values passed
to the callback on successive fires of the self-rescheduling timer.
`start` is the clock reading taken when the sampler was created
(`let start = hrtime()`), the list holds the clock readings `t` of the
successive fires; each fire reports `Math.max(0, t - start - ms)` and then
sets `start = t`. -/
def lagReports (ms : ℚ) (start : ℚ) : List ℚ → List ℚ
  | [] => []
  | t :: rest => max 0 (t - start - ms) :: lagReports ms t rest

/-- One firing of the resource sampler (`monitorStats`, lines 441-452) or
of the lag-sampler callback installed by `runTests` (lines 128-132). -/
inductive SampleEv where
  | cpuMem (c m : ℚ)
  | lag (l : ℚ)
deriving DecidableEq

/-- The state threaded through one workload's part of `runTests`: the
marker, the local `times` record and the three sample-series maps. -/
structure WorkloadRun where
  activeTest : String
  times : List (String × List ℚ)
  cpuStats : List (String × List ℚ)
  memStats : List (String × List ℚ)
  internalEventLoopLags : List (String × List ℚ)
deriving DecidableEq

/-- Effect of one sampler firing: both samplers drop the sample when the
marker is `'none'` and otherwise append to the series keyed by the
marker's current value (lines 129-131 and 445-448).  In every reachable
state the keyed series exists; the `getD []` default only totalizes the
lookup. -/
def applySample (s : WorkloadRun) : SampleEv → WorkloadRun
  | .cpuMem c mv =>
    if s.activeTest = "none" then s
    else
      { s with
        cpuStats := setK s.cpuStats s.activeTest (((getK s.cpuStats s.activeTest).getD []) ++ [c])
        memStats := setK s.memStats s.activeTest (((getK s.memStats s.activeTest).getD []) ++ [mv]) }
  | .lag l =>
    if s.activeTest = "none" then s
    else
      { s with
        internalEventLoopLags :=
          setK s.internalEventLoopLags s.activeTest
            (((getK s.internalEventLoopLags s.activeTest).getD []) ++ [l]) }

/-- A batch of sampler firings interleaved into one window of the epoch. -/
def applySamples (s : WorkloadRun) (evs : List SampleEv) : WorkloadRun :=
  evs.foldl applySample s

/-- Environment of one epoch: the wall time `execute()` took, and the
sampler firings that the cooperative scheduler interleaved into the
prepare window, the execute window, and the cleanup/cooldown window. -/
structure EpochSchedule where
  elapsed : ℚ
  duringPrepare : List SampleEv
  duringExecute : List SampleEv
  afterExecute : List SampleEv

/-- One iteration of the epoch loop (source lines 161-187): prepare (marker
still `'none'`), set the marker, run `execute()` (samples land on this
workload), clear the marker, push the elapsed time, clean up and cool
down. -/
def runEpoch (w : String) (ep : EpochSchedule) (s : WorkloadRun) : WorkloadRun :=
  let s1 := applySamples s ep.duringPrepare
  let s2 := { s1 with activeTest := w }
  let s3 := applySamples s2 ep.duringExecute
  let s4 := { s3 with activeTest := "none" }
  let s5 := { s4 with times := setK s4.times w (((getK s4.times w).getD []) ++ [ep.elapsed]) }
  applySamples s5 ep.afterExecute

/-- The epoch loop from epoch index `j`, `k` epochs remaining. -/
def runEpochsFrom (w : String) (sched : ℕ → EpochSchedule) : ℕ → ℕ → WorkloadRun → WorkloadRun
  | _, 0, s => s
  | j, k + 1, s => runEpochsFrom w sched (j + 1) k (runEpoch w (sched j) s)

/-- The series initialization for one workload (source lines 137-140). -/
def initWorkload (w : String) (s : WorkloadRun) : WorkloadRun :=
  { s with
    times := setK s.times w []
    cpuStats := setK s.cpuStats w []
    memStats := setK s.memStats w []
    internalEventLoopLags := setK s.internalEventLoopLags w [] }

/-- One workload's slice of `runTests` up to the point where its summary
is reduced (source lines 136-189): initialize the four series, then run
the epoch loop `for (let j = 1; j <= epochs; j++)`. -/
def runWorkload (w : String) (epochs : ℚ) (sched : ℕ → EpochSchedule) (s : WorkloadRun) :
    WorkloadRun :=
  runEpochsFrom w sched 0 (epochLoopCount epochs) (initWorkload w s)

/-- The part of an instance object's `common` the benchmark reads or
writes, plus an opaque remainder (`title`) standing for everything it must
leave alone. -/
structure InstCommon where
  enabled : Bool
  title : String
deriving DecidableEq

/-- A `system.adapter.*` instance object: an optional `common` (the code
guards with `instance.value?.common?` and `obj && obj.common`) and an
opaque remainder. -/
structure InstObj where
  common : Option InstCommon
  native : String
deriving DecidableEq

/-- The object store holding the instance objects, keyed by full id. -/
def Store : Type := String → Option InstObj

/-- `setForeignObjectAsync(id, obj)`. -/
def storeSet (st : Store) (id : String) (v : InstObj) : Store :=
  fun j => if j = id then some v else st j

/-- Truthiness of `instance.value?.common?.enabled`. -/
def isEnabled (o : InstObj) : Bool :=
  match o.common with
  | some c => c.enabled
  | none => false

/-- `instance.value.common.enabled = false` on a fetched object. -/
def disableObj (o : InstObj) : InstObj :=
  { o with common := o.common.map fun c => { c with enabled := false } }

/-- `obj.common.enabled = true` on a fetched object. -/
def enableObj (o : InstObj) : InstObj :=
  { o with common := o.common.map fun c => { c with enabled := true } }

/-- The isolated-run disable pass (source lines 101-113): iterate over the
snapshot rows of the instance view; every row that is not the benchmark's
own instance and is currently enabled is written back disabled and its id
is recorded in `restartInstances`, in row order. -/
def disableLoop (own : String) : List (String × InstObj) → Store → Store × List String
  | [], st => (st, [])
  | (id, v) :: rest, st =>
    if id ≠ own ∧ isEnabled v then
      let res := disableLoop own rest (storeSet st id (disableObj v))
      (res.1, id :: res.2)
    else
      disableLoop own rest st

/-- The isolated-run restore pass (source lines 268-277): for each
recorded id, fetch the object's current persisted definition and, if it
exists and has a `common`, write it back enabled. -/
def enableLoop : List String → Store → Store
  | [], st => st
  | id :: rest, st =>
    let st2 :=
      match st id with
      | some o =>
        match o.common with
        | some _ => storeSet st id (enableObj o)
        | none => st
      | none => st
    enableLoop rest st2

/-- `applySample` for the adapter-state carrier: the samplers of a
secondary-mode measuring session append into the adapter's own series
maps under the marker's current key (lines 129-131, 445-448). -/
def applySampleB (s : BenchState) : SampleEv → BenchState
  | .cpuMem c mv =>
    if s.activeTest = "none" then s
    else
      { s with
        cpuStats := setK s.cpuStats s.activeTest (((getK s.cpuStats s.activeTest).getD []) ++ [c])
        memStats := setK s.memStats s.activeTest (((getK s.memStats s.activeTest).getD []) ++ [mv]) }
  | .lag l =>
    if s.activeTest = "none" then s
    else
      { s with
        internalEventLoopLags :=
          setK s.internalEventLoopLags s.activeTest
            (((getK s.internalEventLoopLags s.activeTest).getD []) ++ [l]) }

/-- The atomic steps of one run of the process, at suspension-point
granularity.  `beginExecute id` is the synchronous block at source lines
170-174 (set the marker, start the clock, call `execute()` up to its first
suspension); `endExecute` is the synchronous block at lines 176-180
(`execute()` resolved, marker reset); `deliver` is one complete delivery of
an inbound message to `onMessage`; `samplerTick` is one sampler firing. -/
inductive SchedOp where
  | beginExecute (id : String)
  | endExecute
  | deliver (now : ℚ) (m : MsgIn)
  | samplerTick (ev : SampleEv)

/-- Effect of one atomic step on the adapter state. -/
def applyOp (cfg : AdapterConfig) (s : BenchState) : SchedOp → BenchState
  | .beginExecute id => { s with activeTest := id, executing := some id }
  | .endExecute => { s with activeTest := "none", executing := none }
  | .deliver now m => (onMessage cfg now s m).state
  | .samplerTick ev => applySampleB s ev

/-- When a step can occur: the scheduler runs only on a primary
(`runTests` is reached only through the `!secondaryMode` branch of
`onMessage`), its epoch loop is strictly sequential so a new `execute()`
starts only when none is in flight, and the id it marks is a key of the
workload registry; `endExecute` ends an `execute()` that is running;
messages and sampler ticks can arrive at any time. -/
def OpEnabled (cfg : AdapterConfig) (s : BenchState) : SchedOp → Prop
  | .beginExecute id => cfg.secondaryMode = false ∧ s.executing = none ∧ id ∈ allTestNames
  | .endExecute => s.executing.isSome
  | .deliver _ _ => True
  | .samplerTick _ => True

/-- States reachable from the freshly constructed adapter by enabled
steps. -/
inductive Reach (cfg : AdapterConfig) : BenchState → Prop where
  | init : Reach cfg initState
  | step {s : BenchState} {op : SchedOp} :
      Reach cfg s → OpEnabled cfg s op → Reach cfg (applyOp cfg s op)

/-- The ActiveTestMarker invariant: while a workload's `execute()` runs the
marker equals that workload's id; otherwise, during a secondary measuring
session it is the reserved key `'requestedMonitoring'`, and at every other
point it is `'none'`. -/
def markerInv (cfg : AdapterConfig) (s : BenchState) : Prop :=
  (∀ id, s.executing = some id → s.activeTest = id ∧ s.measuring = false ∧ cfg.secondaryMode = false)
  ∧ (s.executing = none →
      (s.measuring = true → s.activeTest = "requestedMonitoring" ∧ cfg.secondaryMode = true)
      ∧ (s.measuring = false → s.activeTest = "none"))

/-! ### Supporting lemmas -/

theorem lookup_filter_ne {α : Type} (m : List (String × α)) (j k : String) (h : j ≠ k) :
    List.lookup j (m.filter fun p => p.1 != k) = List.lookup j m := by
  induction m with
  | nil => rfl
  | cons p rest ih =>
    by_cases hp : p.1 = k
    · have : (p.1 != k) = false := by simp [hp]
      rw [List.filter_cons, this]
      simp only [Bool.false_eq_true, if_false]
      rw [ih]
      rcases p with ⟨a, b⟩
      simp only at hp
      subst hp
      simp [List.lookup, beq_eq_false_iff_ne.mpr h]
    · have : (p.1 != k) = true := by simp [hp]
      rw [List.filter_cons, this]
      simp only [if_true]
      rcases p with ⟨a, b⟩
      by_cases hj : j = a
      · subst hj
        simp [List.lookup]
      · simp only [List.lookup, beq_eq_false_iff_ne.mpr hj]
        exact ih

theorem getK_setK_self {α : Type} (m : List (String × α)) (k : String) (v : α) :
    getK (setK m k v) k = some v := by
  simp [getK, setK, List.lookup]

theorem getK_setK_ne {α : Type} (m : List (String × α)) (k j : String) (v : α) (h : j ≠ k) :
    getK (setK m k v) j = getK m j := by
  simp only [getK, setK, List.lookup, beq_eq_false_iff_ne.mpr h]
  exact lookup_filter_ne m j k h

theorem jsSum_map_some_aux (l : List ℚ) : ∀ a : ℚ, (l.map some).foldl jsAdd (some a) = some (a + l.sum) := by
  induction l with
  | nil => intro a; simp
  | cons x xs ih =>
    intro a
    simp only [List.map_cons, List.foldl_cons, List.sum_cons]
    have hstep : jsAdd (some a) (some x) = some (a + x) := rfl
    rw [hstep, ih (a + x)]
    ring_nf

theorem jsSum_map_some (l : List ℚ) : jsSum (l.map some) = some l.sum := by
  have h := jsSum_map_some_aux l 0
  simpa [jsSum] using h

theorem calcMean_of_ne_nil (l : List ℚ) (h : l ≠ []) :
    calcMean l = some (l.sum / l.length) := by
  have hlen : ((l.length : ℚ)) ≠ 0 := by
    simp [List.length_eq_zero, h]
  simp [calcMean, jsSum_map_some, jsDiv, hlen]

theorem variance_nonneg (l : List ℚ) (m : ℚ) :
    0 ≤ (l.map fun v => (v - m) * (v - m)).sum / l.length := by
  apply div_nonneg
  · apply List.sum_nonneg
    intro x hx
    rcases List.mem_map.mp hx with ⟨y, _, rfl⟩
    exact mul_self_nonneg _
  · positivity

theorem calcStd_explicit (l : List ℚ) (m : ℚ) (h : l ≠ []) (hmean : calcMean l = some m) :
    calcStd l = some (Real.sqrt (((l.map fun v => (v - m) * (v - m)).sum / l.length : ℚ) : ℝ)) := by
  have hlen : ((l.length : ℚ)) ≠ 0 := by
    simp [List.length_eq_zero, h]
  have hsq : (l.map fun value => jsMul (jsSub (some value) (calcMean l)) (jsSub (some value) (calcMean l)))
      = (l.map fun v => (v - m) * (v - m)).map some := by
    rw [hmean, List.map_map]
    rfl
  simp only [calcStd, hsq, jsSum_map_some, List.length_map]
  have hq : jsDiv (some (l.map fun v => (v - m) * (v - m)).sum) (some ((l.length : ℚ)))
      = some ((l.map fun v => (v - m) * (v - m)).sum / l.length) := by
    simp [jsDiv, hlen]
  rw [hq]
  simp [jsSqrt, not_lt.mpr (variance_nonneg l m)]

theorem calcStd_of_ne_nil (l : List ℚ) (h : l ≠ []) :
    ∃ v : ℚ, 0 ≤ v ∧ calcStd l = some (Real.sqrt (v : ℝ)) := by
  refine ⟨(l.map fun v => (v - l.sum / l.length) * (v - l.sum / l.length)).sum / l.length,
    variance_nonneg l _, ?_⟩
  exact calcStd_explicit l _ h (calcMean_of_ne_nil l h)

/-- Evaluation rule for `Benchmark.round` at concrete rationals: if the
integer `z` brackets `q * 100 + 1/2` then `round q = z / 100`. -/
theorem roundVal_eq (q : ℚ) (z : ℤ) (h1 : (z : ℚ) ≤ q * 100 + 1/2) (h2 : q * 100 + 1/2 < z + 1) :
    roundVal q = (z : ℚ) / 100 := by
  rw [roundVal, jsMathRound, Int.floor_eq_iff.mpr ⟨h1, h2⟩]

/-- `Benchmark.round` agrees with its rational counterpart on rational
points of the real line. -/
theorem roundR_ratCast (q : ℚ) : roundR ((q : ℝ)) = ((roundVal q : ℚ) : ℝ) := by
  have hcast : ((q : ℝ)) * 100 + 1 / 2 = (((q * 100 + 1 / 2 : ℚ)) : ℝ) := by push_cast; ring
  rw [roundR, hcast, Rat.floor_cast]
  rw [roundVal, jsMathRound]
  push_cast
  ring

theorem applySample_times (s : WorkloadRun) (ev : SampleEv) : (applySample s ev).times = s.times := by
  cases ev <;> simp only [applySample] <;> split <;> rfl

theorem applySamples_times (evs : List SampleEv) : ∀ s : WorkloadRun, (applySamples s evs).times = s.times := by
  induction evs with
  | nil => intro s; rfl
  | cons e rest ih =>
    intro s
    simp only [applySamples, List.foldl_cons]
    rw [show (rest.foldl applySample (applySample s e)) = applySamples (applySample s e) rest from rfl]
    rw [ih, applySample_times]

theorem runEpoch_times (w : String) (ep : EpochSchedule) (s : WorkloadRun) :
    (runEpoch w ep s).times = setK s.times w (((getK s.times w).getD []) ++ [ep.elapsed]) := by
  simp only [runEpoch, applySamples_times]

theorem runEpochsFrom_times (w : String) (sched : ℕ → EpochSchedule) :
    ∀ (k j : ℕ) (s : WorkloadRun) (l : List ℚ), getK s.times w = some l →
      getK (runEpochsFrom w sched j k s).times w
        = some (l ++ (List.range' j k).map fun i => (sched i).elapsed) := by
  intro k
  induction k with
  | zero =>
    intro j s l hl
    simpa [runEpochsFrom] using hl
  | succ n ih =>
    intro j s l hl
    have hstep : getK (runEpoch w (sched j) s).times w = some (l ++ [(sched j).elapsed]) := by
      rw [runEpoch_times, getK_setK_self, hl]
      rfl
    have := ih (j + 1) (runEpoch w (sched j) s) (l ++ [(sched j).elapsed]) hstep
    rw [show runEpochsFrom w sched j (n + 1) s
        = runEpochsFrom w sched (j + 1) n (runEpoch w (sched j) s) from rfl, this]
    rw [List.range'_succ, List.map_cons, List.append_assoc]
    rfl

theorem getK_map_of_mem {α β : Type} (rm : List (String × α)) (g : α → β) (inst : String) (e : α)
    (hnd : (rm.map Prod.fst).Nodup) (hmem : (inst, e) ∈ rm) :
    getK (rm.map fun p => (p.1, g p.2)) inst = some (g e) := by
  induction rm with
  | nil => cases hmem
  | cons p rest ih =>
    rcases p with ⟨a, b⟩
    rcases List.mem_cons.mp hmem with heq | hmem2
    · rcases Prod.mk.injEq .. ▸ heq with ⟨h1, h2⟩
      subst h1
      subst h2
      simp [getK, List.lookup]
    · have ha : a ∉ rest.map Prod.fst := by
        have := hnd
        simp only [List.map_cons, List.nodup_cons] at this
        exact this.1
      have hinst : inst ∈ rest.map Prod.fst := List.mem_map.mpr ⟨(inst, e), hmem2, rfl⟩
      have hne : inst ≠ a := fun hcontra => ha (hcontra ▸ hinst)
      simp only [List.map_cons, getK, List.lookup, beq_eq_false_iff_ne.mpr hne]
      have hndr : (rest.map Prod.fst).Nodup := by
        simp only [List.map_cons, List.nodup_cons] at hnd
        exact hnd.2
      exact ih hndr hmem2

theorem jsLoopCount_natCast (k : ℕ) : jsLoopCount ((k : ℚ)) = k := by
  rcases Nat.eq_zero_or_pos k with hk | hk
  · subst hk
    simp [jsLoopCount]
  · have hpos : (0 : ℚ) < (k : ℚ) := by exact_mod_cast hk
    rw [jsLoopCount, if_neg (not_le.mpr hpos)]
    simp

theorem typeofObject_of_getField_str (v : JSVal) (k t : String)
    (h : v.getField k = .ok (.str t)) : v.typeofObject = true := by
  cases v <;> simp_all [JSVal.getField, JSVal.typeofObject]

theorem storeSet_self (st : Store) (id : String) (v : InstObj) : storeSet st id v id = some v := by
  simp [storeSet]

theorem storeSet_ne (st : Store) (id j : String) (v : InstObj) (h : j ≠ id) :
    storeSet st id v j = st j := by
  simp [storeSet, h]

theorem disableLoop_ids (own : String) (rows : List (String × InstObj)) :
    ∀ st : Store, (disableLoop own rows st).2
      = (rows.filter fun p => decide (p.1 ≠ own) && isEnabled p.2).map Prod.fst := by
  induction rows with
  | nil => intro st; rfl
  | cons p rest ih =>
    intro st
    rcases p with ⟨id, v⟩
    by_cases hc : id ≠ own ∧ isEnabled v = true
    · rw [show disableLoop own ((id, v) :: rest) st
          = ((disableLoop own rest (storeSet st id (disableObj v))).1,
             id :: (disableLoop own rest (storeSet st id (disableObj v))).2) from by
        simp [disableLoop, hc]]
      have hp : (decide (id ≠ own) && isEnabled v) = true := by
        simp [hc.1, hc.2]
      rw [List.filter_cons]
      simp only [hp, if_true]
      simp [ih]
    · rw [show disableLoop own ((id, v) :: rest) st = disableLoop own rest st from by
        simp [disableLoop, hc]]
      have hp : (decide (id ≠ own) && isEnabled v) = false := by
        by_cases h1 : id = own
        · simp [h1]
        · have h2 : isEnabled v = false := by
            rcases Bool.eq_false_or_eq_true (isEnabled v) with h | h
            · exact absurd ⟨h1, h⟩ hc
            · exact h
          simp [h2]
      rw [List.filter_cons]
      simp only [hp, Bool.false_eq_true, if_false]
      exact ih st

theorem disableLoop_frame (own : String) (rows : List (String × InstObj)) :
    ∀ (st : Store) (j : String), j ∉ (disableLoop own rows st).2 →
      (disableLoop own rows st).1 j = st j := by
  induction rows with
  | nil => intro st j _; rfl
  | cons p rest ih =>
    intro st j hj
    rcases p with ⟨id, v⟩
    by_cases hc : id ≠ own ∧ isEnabled v = true
    · rw [show disableLoop own ((id, v) :: rest) st
          = ((disableLoop own rest (storeSet st id (disableObj v))).1,
             id :: (disableLoop own rest (storeSet st id (disableObj v))).2) from by
        simp [disableLoop, hc]] at hj ⊢
      simp only [List.mem_cons, not_or] at hj
      rw [ih _ j hj.2, storeSet_ne _ _ _ _ hj.1]
    · rw [show disableLoop own ((id, v) :: rest) st = disableLoop own rest st from by
        simp [disableLoop, hc]] at hj ⊢
      exact ih st j hj

theorem disableLoop_ids_subset (own : String) (rows : List (String × InstObj)) (st : Store) :
    ∀ j ∈ (disableLoop own rows st).2, j ∈ rows.map Prod.fst := by
  intro j hj
  rw [disableLoop_ids] at hj
  exact List.map_subset Prod.fst (fun x hx => List.mem_of_mem_filter hx) hj

theorem disableLoop_disables (own : String) (rows : List (String × InstObj)) (id : String)
    (v : InstObj) (hnd : (rows.map Prod.fst).Nodup) (hmem : (id, v) ∈ rows) (ho : id ≠ own)
    (he : isEnabled v = true) :
    ∀ st : Store, (disableLoop own rows st).1 id = some (disableObj v) := by
  induction rows with
  | nil => cases hmem
  | cons p rest ih =>
    intro st
    rcases p with ⟨a, b⟩
    simp only [List.map_cons, List.nodup_cons] at hnd
    rcases List.mem_cons.mp hmem with heq | hmem2
    · cases heq
      rw [show disableLoop own ((id, v) :: rest) st
          = ((disableLoop own rest (storeSet st id (disableObj v))).1,
             id :: (disableLoop own rest (storeSet st id (disableObj v))).2) from by
        simp [disableLoop, ho, he]]
      have hid : id ∉ (disableLoop own rest (storeSet st id (disableObj v))).2 := fun hmem3 =>
        hnd.1 (disableLoop_ids_subset own rest _ id hmem3)
      rw [disableLoop_frame own rest _ id hid, storeSet_self]
    · have hmm : id ∈ rest.map Prod.fst := List.mem_map.mpr ⟨(id, v), hmem2, rfl⟩
      by_cases hc : a ≠ own ∧ isEnabled b = true
      · rw [show disableLoop own ((a, b) :: rest) st
            = ((disableLoop own rest (storeSet st a (disableObj b))).1,
               a :: (disableLoop own rest (storeSet st a (disableObj b))).2) from by
          simp [disableLoop, hc]]
        exact ih hnd.2 hmem2 _
      · rw [show disableLoop own ((a, b) :: rest) st = disableLoop own rest st from by
          simp [disableLoop, hc]]
        exact ih hnd.2 hmem2 st

theorem enableLoop_frame (ids : List String) :
    ∀ (st : Store) (j : String), j ∉ ids → enableLoop ids st j = st j := by
  induction ids with
  | nil => intro st j _; rfl
  | cons id rest ih =>
    intro st j hj
    simp only [List.mem_cons, not_or] at hj
    simp only [enableLoop]
    rw [ih _ j hj.2]
    rcases hst : st id with _ | o
    · rfl
    · show (match o.common with
          | some _ => storeSet st id (enableObj o)
          | none => st) j = st j
      rcases o.common with _ | c
      · rfl
      · exact storeSet_ne _ _ _ _ hj.1

theorem enableLoop_enables (ids : List String) :
    ∀ (st : Store) (id : String) (o : InstObj) (c : InstCommon), ids.Nodup → id ∈ ids →
      st id = some o → o.common = some c → enableLoop ids st id = some (enableObj o) := by
  induction ids with
  | nil => intro _ _ _ _ _ h; cases h
  | cons a rest ih =>
    intro st id o c hnd hid hst hc
    simp only [List.nodup_cons] at hnd
    rcases List.mem_cons.mp hid with rfl | hid2
    · simp only [enableLoop, hst, hc]
      rw [enableLoop_frame rest _ id hnd.1, storeSet_self]
    · have hne : id ≠ a := fun h => hnd.1 (h ▸ hid2)
      simp only [enableLoop]
      have hst2 : (match st a with
          | some o =>
            match o.common with
            | some _ => storeSet st a (enableObj o)
            | none => st
          | none => st) id = some o := by
        rcases hsta : st a with _ | oa
        · exact hst
        · show (match oa.common with
              | some _ => storeSet st a (enableObj oa)
              | none => st) id = some o
          rcases oa.common with _ | ca
          · exact hst
          · show storeSet st a (enableObj oa) id = some o
            rw [storeSet_ne _ _ _ _ hne]
            exact hst
      exact ih _ id o c hnd.2 hid2 hst2 hc

theorem disableLoop_skips (own : String) (rows : List (String × InstObj)) (id : String)
    (v : InstObj) (hnd : (rows.map Prod.fst).Nodup) (hmem : (id, v) ∈ rows)
    (hdis : ¬(id ≠ own ∧ isEnabled v = true)) :
    ∀ st : Store, (disableLoop own rows st).1 id = st id ∧ id ∉ (disableLoop own rows st).2 := by
  induction rows with
  | nil => cases hmem
  | cons p rest ih =>
    intro st
    rcases p with ⟨a, b⟩
    simp only [List.map_cons, List.nodup_cons] at hnd
    rcases List.mem_cons.mp hmem with heq | hmem2
    · cases heq
      rw [show disableLoop own ((id, v) :: rest) st = disableLoop own rest st from by
        simp [disableLoop, hdis]]
      have hnotin : id ∉ (disableLoop own rest st).2 := fun hmem3 =>
        hnd.1 (disableLoop_ids_subset own rest st id hmem3)
      exact ⟨disableLoop_frame own rest st id hnotin, hnotin⟩
    · have hne : id ≠ a := by
        intro h
        have hmm : id ∈ rest.map Prod.fst := List.mem_map.mpr ⟨(id, v), hmem2, rfl⟩
        rw [h] at hmm
        exact hnd.1 hmm
      by_cases hc : a ≠ own ∧ isEnabled b = true
      · rw [show disableLoop own ((a, b) :: rest) st
            = ((disableLoop own rest (storeSet st a (disableObj b))).1,
               a :: (disableLoop own rest (storeSet st a (disableObj b))).2) from by
          simp [disableLoop, hc]]
        obtain ⟨hf, hn⟩ := ih hnd.2 hmem2 (storeSet st a (disableObj b))
        refine ⟨?_, ?_⟩
        · rw [hf, storeSet_ne _ _ _ _ hne]
        · simp only [List.mem_cons, not_or]
          exact ⟨hne, hn⟩
      · rw [show disableLoop own ((a, b) :: rest) st = disableLoop own rest st from by
          simp [disableLoop, hc]]
        exact ih hnd.2 hmem2 st

theorem applySampleB_fields (s : BenchState) (ev : SampleEv) :
    (applySampleB s ev).activeTest = s.activeTest
    ∧ (applySampleB s ev).executing = s.executing
    ∧ (applySampleB s ev).measuring = s.measuring := by
  cases ev <;> simp only [applySampleB] <;> split <;> exact ⟨rfl, rfl, rfl⟩

theorem markerInv_congr (cfg : AdapterConfig) (s s2 : BenchState)
    (ha : s2.activeTest = s.activeTest) (he : s2.executing = s.executing)
    (hm : s2.measuring = s.measuring) (hinv : markerInv cfg s) : markerInv cfg s2 := by
  unfold markerInv
  rw [ha, he, hm]
  exact hinv

theorem onMessage_state_fields (cfg : AdapterConfig) (now : ℚ) (s : BenchState) (m : MsgIn) :
    (onMessage cfg now s m).state.executing = s.executing
    ∧ (((onMessage cfg now s m).state.activeTest = s.activeTest
          ∧ (onMessage cfg now s m).state.measuring = s.measuring)
       ∨ (cfg.secondaryMode = true
          ∧ (onMessage cfg now s m).state.activeTest = "requestedMonitoring"
          ∧ (onMessage cfg now s m).state.measuring = true)
       ∨ (cfg.secondaryMode = true
          ∧ (onMessage cfg now s m).state.activeTest = "none"
          ∧ (onMessage cfg now s m).state.measuring = false)) := by
  rcases m with ⟨sender, command, message⟩
  cases hsm : cfg.secondaryMode with
  | false =>
    refine ⟨?_, Or.inl ⟨?_, ?_⟩⟩ <;>
      · by_cases h1 : command = "test"
        · simp [onMessage, hsm, h1, ackOut]
        · by_cases h2 : command ∈ allTestNames
          · simp [onMessage, hsm, h1, h2, ackOut]
          · by_cases h3 : command = "requestedMonitoring"
            · subst h3
              cases message <;>
                simp [onMessage, hsm, h1, h2, JSVal.typeofObject, JSVal.getField, ackOut,
                  throwOut]
            · simp [onMessage, hsm, h1, h2, h3, ackOut]
  | true =>
    by_cases h1 : command = "objects"
    · refine ⟨?_, Or.inl ⟨?_, ?_⟩⟩ <;>
        · cases message <;>
            · simp [onMessage, hsm, h1, JSVal.typeofObject, JSVal.getField, JSVal.eqStr, ackOut,
                throwOut]
              all_goals split_ifs <;> (try split) <;> rfl
    · by_cases h2 : command = "states"
      · refine ⟨?_, Or.inl ⟨?_, ?_⟩⟩ <;>
          · cases message <;>
              · simp [onMessage, hsm, h1, h2, JSVal.typeofObject, JSVal.getField, JSVal.eqStr,
                  ackOut, throwOut]
                all_goals split_ifs <;> (try split) <;> rfl
      · by_cases h3 : command = "startMeasuring"
        · refine ⟨?_, Or.inr (Or.inl ⟨rfl, ?_, ?_⟩)⟩ <;>
            simp [onMessage, hsm, h1, h2, h3, ackOut]
        · by_cases h4 : command = "stopMeasuring"
          · refine ⟨?_, Or.inr (Or.inr ⟨rfl, ?_, ?_⟩)⟩ <;>
              simp [onMessage, hsm, h1, h2, h3, h4, ackOut]
          · refine ⟨?_, Or.inl ⟨?_, ?_⟩⟩ <;>
              simp [onMessage, hsm, h1, h2, h3, h4, ackOut]

theorem markerInv_preserve (cfg : AdapterConfig) (s : BenchState) (op : SchedOp)
    (hen : OpEnabled cfg s op) (hinv : markerInv cfg s) :
    markerInv cfg (applyOp cfg s op) := by
  cases op with
  | beginExecute id =>
    obtain ⟨hsm, hex, hidmem⟩ := hen
    have hms : s.measuring = false := by
      rcases Bool.eq_false_or_eq_true s.measuring with h | h
      · exact absurd ((hinv.2 hex).1 h).2 (by simp [hsm])
      · exact h
    constructor
    · intro id2 hid2
      have hii : some id = some id2 := hid2
      obtain rfl := Option.some_injective _ hii
      exact ⟨rfl, hms, hsm⟩
    · intro hnone
      exact Option.noConfusion (show some id = none from hnone)
  | endExecute =>
    obtain ⟨id, hid⟩ := Option.isSome_iff_exists.mp hen
    have hms : s.measuring = false := (hinv.1 id hid).2.1
    constructor
    · intro id2 hid2
      exact Option.noConfusion (show (none : Option String) = some id2 from hid2)
    · intro _
      constructor
      · intro hm
        have hmm : s.measuring = true := hm
        rw [hms] at hmm
        exact Bool.noConfusion hmm
      · intro _
        rfl
  | samplerTick ev =>
    obtain ⟨ha, he, hm⟩ := applySampleB_fields s ev
    exact markerInv_congr cfg s _ ha he hm hinv
  | deliver now2 m =>
    simp only [applyOp]
    obtain ⟨hexe, hcase⟩ := onMessage_state_fields cfg now2 s m
    rcases hcase with ⟨ha, hm⟩ | ⟨hsm, ha, hm⟩ | ⟨hsm, ha, hm⟩
    · exact markerInv_congr cfg s _ ha hexe hm hinv
    · have hex : s.executing = none := by
        rcases hoption : s.executing with _ | id
        · rfl
        · exact absurd (hinv.1 id hoption).2.2 (by simp [hsm])
      constructor
      · intro id2 hid2
        rw [hexe, hex] at hid2
        exact Option.noConfusion hid2
      · intro _
        constructor
        · intro _
          exact ⟨ha, hsm⟩
        · intro hmf
          rw [hm] at hmf
          exact Bool.noConfusion hmf
    · have hex : s.executing = none := by
        rcases hoption : s.executing with _ | id
        · rfl
        · exact absurd (hinv.1 id hoption).2.2 (by simp [hsm])
      constructor
      · intro id2 hid2
        rw [hexe, hex] at hid2
        exact Option.noConfusion hid2
      · intro _
        refine ⟨?_, fun _ => ha⟩
        intro hmt
        rw [hm] at hmt
        exact Bool.noConfusion hmt

/-! ### Claims -/

/-- Claim C8: `calcMean` applied to the empty list returns NaN (the `0/0`
case of sum divided by length), and `calcStd` applied to the empty list
returns NaN; both functions are total so neither throws or crashes on
empty input (`none` models NaN, see the module docstring). -/
theorem calcMean_calcStd_empty_nan :
    calcMean [] = none ∧ calcStd [] = none := by
  constructor
  · rfl
  · simp [calcStd, calcMean, jsSum, jsDiv, jsSqrt]

/-- Claim C4, counterexample: `round` is not round-half-away-from-zero on
negative inputs.  `-0.005` is exactly halfway between the representable
neighbours `-0.01` and `0`; half-away-from-zero demands `-0.01`, but
`Math.round(-0.5)` is `-0`, so the code returns `0`. -/
theorem round_neg_tie_towards_zero :
    roundVal (-(1/200)) = 0 ∧ roundVal (-(1/200)) ≠ -(1/100) := by
  have h : roundVal (-(1/200)) = 0 := by
    have := roundVal_eq (-(1/200)) 0 (by norm_num) (by norm_num)
    simpa using this
  refine ⟨h, ?_⟩
  rw [h]
  norm_num

/-- Claim C4, amended: `round(x)` returns `x` rounded to 2 decimal places
with ties at the 2nd decimal rounded toward `+∞` (JS `Math.round`
semantics): the result is within half a grid step of `x`, and a value
exactly halfway between the neighbours `k/100` and `(k+1)/100` rounds to
`(k+1)/100` — away from zero for positive `x` but toward zero for
negative `x`. -/
theorem round_two_decimals_half_up :
    (∀ q : ℚ, |roundVal q - q| ≤ 1/200) ∧
    (∀ k : ℤ, roundVal ((k : ℚ)/100 + 1/200) = ((k : ℚ) + 1)/100) := by
  constructor
  · intro q
    have h1 : ((⌊q * 100 + 1/2⌋ : ℤ) : ℚ) ≤ q * 100 + 1/2 := Int.floor_le _
    have h2 : q * 100 + 1/2 - 1 < ((⌊q * 100 + 1/2⌋ : ℤ) : ℚ) := Int.sub_one_lt_floor _
    rw [roundVal, jsMathRound, abs_le]
    constructor
    · linarith
    · linarith
  · intro k
    have harg : ((k : ℚ)/100 + 1/200) * 100 + 1/2 = ((k + 1 : ℤ) : ℚ) := by
      push_cast
      ring
    rw [roundVal, jsMathRound, harg, Int.floor_intCast]
    push_cast
    ring

/-- Claim C5: on every fire of the event-loop-lag sampler with target
interval `ms`, the callback receives exactly
`max(0, actual_elapsed - ms)` where `actual_elapsed` is the wall time
since the previous fire (or since sampler creation for the first fire),
so the reported lag is never negative. -/
theorem lagReports_spec :
    (∀ (ms start : ℚ) (ts : List ℚ),
      lagReports ms start ts = (ts.zip (start :: ts)).map fun p => max 0 (p.1 - p.2 - ms)) ∧
    (∀ (ms start : ℚ) (ts : List ℚ) (r : ℚ), r ∈ lagReports ms start ts → 0 ≤ r) := by
  have hzip : ∀ (ms start : ℚ) (ts : List ℚ),
      lagReports ms start ts = (ts.zip (start :: ts)).map fun p => max 0 (p.1 - p.2 - ms) := by
    intro ms start ts
    induction ts generalizing start with
    | nil => rfl
    | cons t rest ih =>
      simp only [lagReports, List.zip_cons_cons, List.map_cons]
      rw [ih t]
  refine ⟨hzip, ?_⟩
  intro ms start ts r hr
  rw [hzip] at hr
  rcases List.mem_map.mp hr with ⟨p, _, rfl⟩
  exact le_max_left _ _

/-- Claim C5, witness: concrete sampler trace with target interval 50
starting at clock 0 and fires at 60, 115, 160; the reports are
10, 5 and 0 (the last fire came early, clamped to 0), all nonnegative. -/
theorem lagReports_spec_witness :
    lagReports 50 0 [60, 115, 160] = [10, 5, 0] ∧ (0 : ℚ) ≤ 10 := by
  have h : lagReports 50 0 [60, 115, 160] = [10, 5, 0] := by
    norm_num [lagReports, max_def]
  exact ⟨h, lagReports_spec.2 50 0 [60, 115, 160] 10 (by rw [h]; simp)⟩

/-- Claim C2: for every run configured with a positive integer number of
epochs `E` in which every workload phase completes, the elapsed-time
series collected for a selected workload holds exactly `E` entries — the
`E` measured execute times, in order — at the moment its summary is
reduced, regardless of which CPU/memory/event-loop-lag samples the
samplers appended in the same interval (the sampler schedule `sched` is
arbitrary). -/
theorem times_series_exactly_epochs (w : String) (cfg : AdapterConfig) (E : ℕ)
    (hE : cfg.epochs = (E : ℚ)) (h0 : 0 < E) (sched : ℕ → EpochSchedule) (s : WorkloadRun) :
    getK (runWorkload w (effConfig cfg).epochs sched s).times w
      = some ((List.range E).map fun i => (sched i).elapsed)
    ∧ ((List.range E).map fun i => (sched i).elapsed).length = E := by
  have hne : ((E : ℚ)) ≠ 0 := Nat.cast_ne_zero.mpr h0.ne'
  have hEq : (effConfig cfg).epochs = (E : ℚ) := by
    simp [effConfig, hE, hne]
  have hcount : epochLoopCount (effConfig cfg).epochs = E := by
    rw [hEq, epochLoopCount, if_neg]
    · simp
    · rw [not_lt]
      exact_mod_cast h0
  constructor
  · rw [runWorkload, hcount]
    have hinit : getK (initWorkload w s).times w = some [] := by
      simp only [initWorkload]
      exact getK_setK_self _ _ _
    have h := runEpochsFrom_times w sched E 0 (initWorkload w s) [] hinit
    rw [h, List.range_eq_range']
    simp
  · simp

/-- Claim C2, witness: a run with `epochs = 2` on workload `idle`, epoch
`j` taking `j` seconds, with sampler firings inside and after the execute
window; the collected time series is exactly `[0, 1]`. -/
theorem times_series_exactly_epochs_witness :
    getK (runWorkload "idle" (effConfig ⟨100, ((2 : ℕ) : ℚ), false, false⟩).epochs
        (fun j => ⟨(j : ℚ), [], [SampleEv.cpuMem 5 6], [SampleEv.lag 1]⟩)
        ⟨"none", [], [], [], []⟩).times "idle"
      = some [0, 1] := by
  have h := times_series_exactly_epochs "idle" ⟨100, ((2 : ℕ) : ℚ), false, false⟩ 2 rfl
    (by norm_num) (fun j => ⟨(j : ℚ), [], [SampleEv.cpuMem 5 6], [SampleEv.lag 1]⟩)
    ⟨"none", [], [], [], []⟩
  rw [h.1]
  norm_num [List.range_succ]

/-- Claim C6: for every secondary instance that reported monitoring data
during a workload's epoch loop, the per-secondary summary attached under
`secondaries` satisfies
`actionsPerSecondMean = round(iterations / timeMean / k)` where
`timeMean` is the rounded mean of that secondary's reported time series
and `k` is the number of reporting instances; and `computeSummary`
attaches exactly these summaries. -/
theorem secondaries_aps_mean (iterations : ℚ) (rm : List (String × RequestedMonitoringEntry))
    (inst : String) (e : RequestedMonitoringEntry)
    (hnd : (rm.map Prod.fst).Nodup) (hmem : (inst, e) ∈ rm) :
    getK (buildSecondaries iterations rm) inst = some (secondarySummary iterations rm.length e)
    ∧ (secondarySummary iterations rm.length e).actionsPerSecondMean
        = roundOpt (jsDiv (jsDiv (some iterations) (roundOpt (calcMean e.time))) (some ((rm.length : ℚ))))
    ∧ ∀ times cpu mem lags : List ℚ,
        (computeSummary iterations times cpu mem lags rm).secondaries
          = some (buildSecondaries iterations rm) := by
  refine ⟨getK_map_of_mem rm _ inst e hnd hmem, rfl, ?_⟩
  intro times cpu mem lags
  have hne : rm.isEmpty = false := by
    cases rm
    · cases hmem
    · rfl
  simp [computeSummary, hne]

/-- Claim C6, witness: two secondaries each reporting `cpuStats = [10, 20]`
and a time series `[2]`, with `iterations = 100`: the attached summary for
`s1` carries `actionsPerSecondMean = 25`, which equals the unrounded
`iterations / timeMean / 2` split across the two reporting instances. -/
theorem secondaries_aps_mean_witness :
    ((getK (buildSecondaries 100
        [("s1", ⟨[2], [10, 20], [], []⟩), ("s2", ⟨[2], [10, 20], [], []⟩)]) "s1").map
      fun ss => ss.actionsPerSecondMean) = some (some 25)
    ∧ (100 : ℚ) / 2 / 2 = 25 := by
  have h := secondaries_aps_mean 100
    [("s1", ⟨[2], [10, 20], [], []⟩), ("s2", ⟨[2], [10, 20], [], []⟩)] "s1"
    ⟨[2], [10, 20], [], []⟩ (by simp) (List.mem_cons_self _ _)
  have hmean : calcMean [(2 : ℚ)] = some 2 := by
    rw [calcMean_of_ne_nil _ (by simp)]
    norm_num
  have hr2 : roundVal (2 : ℚ) = 2 := by
    have := roundVal_eq 2 200 (by norm_num) (by norm_num)
    rw [this]
    norm_num
  have hr25 : roundVal (25 : ℚ) = 25 := by
    have := roundVal_eq 25 2500 (by norm_num) (by norm_num)
    rw [this]
    norm_num
  constructor
  · rw [h.1]
    simp only [Option.map_some']
    rw [h.2.1]
    simp only [hmean, roundOpt, Option.map_some', hr2]
    have hd1 : jsDiv (some (100 : ℚ)) (some 2) = some 50 := by
      simp [jsDiv]
      norm_num
    rw [hd1]
    have hd2 : jsDiv (some (50 : ℚ)) (some ((([("s1", (⟨[2], [10, 20], [], []⟩ : RequestedMonitoringEntry)), ("s2", ⟨[2], [10, 20], [], []⟩)].length : ℕ)) : ℚ)) = some 25 := by
      simp [jsDiv]
      norm_num
    rw [hd2]
    simp [roundOpt, hr25]
  · norm_num

/-- Claim C3: in every workload summary computed by the orchestrator, if
the rounded time standard deviation `timeStd` is `0` then
`actionsPerSecondStd` is exactly `0`; otherwise it is
`round(iterations / timeStd)`; and when the time series is non-empty the
value is a (finite) number, never NaN or Infinity. -/
theorem aps_std_guard (iterations : ℚ) (times cpu mem lags : List ℚ)
    (rm : List (String × RequestedMonitoringEntry)) :
    ((computeSummary iterations times cpu mem lags rm).timeStd = some 0 →
      (computeSummary iterations times cpu mem lags rm).actionsPerSecondStd = some 0)
    ∧ (∀ t : ℝ, (computeSummary iterations times cpu mem lags rm).timeStd = some t → t ≠ 0 →
        (computeSummary iterations times cpu mem lags rm).actionsPerSecondStd
          = some (roundR ((iterations : ℝ) / t)))
    ∧ (times ≠ [] →
        ∃ v : ℝ, (computeSummary iterations times cpu mem lags rm).actionsPerSecondStd = some v) := by
  have hT : (computeSummary iterations times cpu mem lags rm).timeStd
      = roundOptR (calcStd times) := rfl
  have hA : (computeSummary iterations times cpu mem lags rm).actionsPerSecondStd
      = (if roundOptR (calcStd times) = some 0 then some 0
         else roundOptR (jsDivR (some ((iterations : ℝ))) (roundOptR (calcStd times)))) := rfl
  refine ⟨?_, ?_, ?_⟩
  · intro h
    rw [hT] at h
    rw [hA, if_pos h]
  · intro t ht hne
    rw [hT] at ht
    have hcond : ¬(roundOptR (calcStd times) = some 0) := by
      intro hc
      rw [ht] at hc
      exact hne (Option.some_injective _ hc)
    rw [hA, if_neg hcond, ht]
    have hdiv : jsDivR (some ((iterations : ℝ))) (some t) = some ((iterations : ℝ) / t) := by
      simp [jsDivR, hne]
    rw [hdiv]
    rfl
  · intro hne
    obtain ⟨v, hv0, hstd⟩ := calcStd_of_ne_nil times hne
    have hTs : roundOptR (calcStd times) = some (roundR (Real.sqrt ((v : ℝ)))) := by
      rw [hstd]
      rfl
    by_cases hz : roundR (Real.sqrt ((v : ℝ))) = 0
    · refine ⟨0, ?_⟩
      rw [hA, if_pos]
      rw [hTs, hz]
    · refine ⟨roundR ((iterations : ℝ) / roundR (Real.sqrt ((v : ℝ)))), ?_⟩
      rw [hA, if_neg]
      · rw [hTs]
        have hdiv : jsDivR (some ((iterations : ℝ))) (some (roundR (Real.sqrt ((v : ℝ)))))
            = some ((iterations : ℝ) / roundR (Real.sqrt ((v : ℝ)))) := by
          simp [jsDivR, hz]
        rw [hdiv]
        rfl
      · rw [hTs]
        intro hc
        exact hz (Option.some_injective _ hc)

/-- Claim C3, witness: `iterations = 100`, time series `[1, 3]` (mean 2,
variance 1, std 1, rounded std 1): the summary's `actionsPerSecondStd` is
`round(100 / 1) = 100`, a finite number. -/
theorem aps_std_guard_witness :
    (computeSummary 100 [1, 3] [] [] [] []).actionsPerSecondStd = some 100 := by
  have hmean : calcMean [(1 : ℚ), 3] = some 2 := by
    rw [calcMean_of_ne_nil _ (by simp)]
    norm_num
  have hvar : ((([(1 : ℚ), 3].map fun v => (v - 2) * (v - 2)).sum / ([(1 : ℚ), 3].length : ℚ)) : ℚ) = 1 := by
    norm_num
  have hstd : calcStd [(1 : ℚ), 3] = some (Real.sqrt (((1 : ℚ) : ℝ))) := by
    have h := calcStd_explicit [(1 : ℚ), 3] 2 (by simp) hmean
    rw [h, hvar]
  have hsqrt1 : Real.sqrt (((1 : ℚ) : ℝ)) = 1 := by
    rw [Rat.cast_one, Real.sqrt_one]
  have hround1 : roundR (1 : ℝ) = 1 := by
    have hc : (1 : ℝ) = (((1 : ℚ)) : ℝ) := by norm_num
    rw [hc, roundR_ratCast]
    have hr : roundVal (1 : ℚ) = 1 := by
      have := roundVal_eq 1 100 (by norm_num) (by norm_num)
      rw [this]
      norm_num
    rw [hr, Rat.cast_one]
  have hT : (computeSummary 100 [1, 3] [] [] [] []).timeStd = some 1 := by
    have hT0 : (computeSummary (100 : ℚ) [1, 3] [] [] [] []).timeStd
        = roundOptR (calcStd [(1 : ℚ), 3]) := rfl
    rw [hT0, hstd, hsqrt1]
    simp only [roundOptR, Option.map_some', hround1]
  have h := (aps_std_guard 100 [1, 3] [] [] [] []).2.1 1 hT one_ne_zero
  rw [h]
  have hdiv : ((100 : ℚ) : ℝ) / 1 = (((100 : ℚ)) : ℝ) := by norm_num
  rw [hdiv, roundR_ratCast]
  have hr : roundVal (100 : ℚ) = 100 := by
    have := roundVal_eq 100 10000 (by norm_num) (by norm_num)
    rw [this]
    norm_num
  rw [hr]
  norm_num

/-- Claim C7, counterexample: a primary receiving `requestedMonitoring`
with a `null` payload passes the `typeof obj.message === 'object'` guard
(`typeof null` is `'object'`), then throws a `TypeError` on
`obj.message.cpuStats`, so the acknowledgement at line 399 is never sent. -/
theorem requested_monitoring_null_no_ack :
    (onMessage ⟨10000, 5, false, false⟩ 0 initState
        ⟨"system.adapter.benchmark.1", "requestedMonitoring", JSVal.null⟩).acks = []
    ∧ (onMessage ⟨10000, 5, false, false⟩ 0 initState
        ⟨"system.adapter.benchmark.1", "requestedMonitoring", JSVal.null⟩).threw = true := by
  constructor <;> rfl

/-- Claim C7, amended: every inbound message receives exactly one
acknowledgement reply, addressed to its sender and echoing its command —
except when the payload is `null` and the command is one whose handler
inspects the payload (`requestedMonitoring` on a primary, `objects` or
`states` on a secondary); there the handler throws and no acknowledgement
is sent. -/
theorem onMessage_acks_once (cfg : AdapterConfig) (now : ℚ) (s : BenchState) (m : MsgIn)
    (h : m.message = JSVal.null →
      m.command ∉ (if cfg.secondaryMode then ["objects", "states"] else ["requestedMonitoring"])) :
    (onMessage cfg now s m).acks = [(m.sender, m.command)] ∧ (onMessage cfg now s m).threw = false := by
  rcases m with ⟨sender, command, message⟩
  dsimp only at h ⊢
  cases hsm : cfg.secondaryMode with
  | false =>
    rw [hsm] at h
    simp only [if_neg (by simp : ¬(false = true))] at h
    by_cases h1 : command = "test"
    · simp [onMessage, hsm, h1, ackOut]
    · by_cases h2 : command ∈ allTestNames
      · simp [onMessage, hsm, h1, h2, ackOut]
      · by_cases h3 : command = "requestedMonitoring"
        · subst h3
          cases message with
          | null => exact absurd (h rfl) (by simp)
          | undefined => simp [onMessage, hsm, h1, h2, JSVal.typeofObject, ackOut]
          | num q => simp [onMessage, hsm, h1, h2, JSVal.typeofObject, ackOut]
          | str t => simp [onMessage, hsm, h1, h2, JSVal.typeofObject, ackOut]
          | boolean b => simp [onMessage, hsm, h1, h2, JSVal.typeofObject, ackOut]
          | arr es => simp [onMessage, hsm, h1, h2, JSVal.typeofObject, JSVal.getField, ackOut]
          | obj fs => simp [onMessage, hsm, h1, h2, JSVal.typeofObject, JSVal.getField, ackOut]
        · simp [onMessage, hsm, h1, h2, h3, ackOut]
  | true =>
    rw [hsm] at h
    simp only [if_pos rfl] at h
    by_cases h1 : command = "objects"
    · subst h1
      cases message with
      | null => exact absurd (h rfl) (by simp)
      | undefined => simp [onMessage, hsm, JSVal.typeofObject, ackOut]
      | num q => simp [onMessage, hsm, JSVal.typeofObject, ackOut]
      | str t => simp [onMessage, hsm, JSVal.typeofObject, ackOut]
      | boolean b => simp [onMessage, hsm, JSVal.typeofObject, ackOut]
      | arr es =>
        simp [onMessage, hsm, JSVal.typeofObject, JSVal.getField, JSVal.eqStr, ackOut]
      | obj fs =>
        simp [onMessage, hsm, JSVal.typeofObject, JSVal.getField]
        all_goals constructor <;> (split_ifs <;> (try split) <;> rfl)
    · by_cases h2 : command = "states"
      · subst h2
        cases message with
        | null => exact absurd (h rfl) (by simp)
        | undefined => simp [onMessage, hsm, h1, JSVal.typeofObject, ackOut]
        | num q => simp [onMessage, hsm, h1, JSVal.typeofObject, ackOut]
        | str t => simp [onMessage, hsm, h1, JSVal.typeofObject, ackOut]
        | boolean b => simp [onMessage, hsm, h1, JSVal.typeofObject, ackOut]
        | arr es =>
          simp [onMessage, hsm, h1, JSVal.typeofObject, JSVal.getField, JSVal.eqStr, ackOut]
        | obj fs =>
          simp [onMessage, hsm, h1, JSVal.typeofObject, JSVal.getField]
          all_goals constructor <;> (split_ifs <;> (try split) <;> rfl)
      · by_cases h3 : command = "startMeasuring"
        · simp [onMessage, hsm, h1, h2, h3, ackOut]
        · by_cases h4 : command = "stopMeasuring"
          · simp [onMessage, hsm, h1, h2, h3, h4, ackOut]
          · simp [onMessage, hsm, h1, h2, h3, h4, ackOut]

/-- Claim C7 amended, witness: a secondary receiving `states` with a
numeric (hence non-null, non-object) payload acknowledges exactly once to
the sender without throwing. -/
theorem onMessage_acks_once_witness :
    (onMessage ⟨10000, 5, true, false⟩ 0 initState ⟨"a", "states", JSVal.num 7⟩).acks
      = [("a", "states")]
    ∧ (onMessage ⟨10000, 5, true, false⟩ 0 initState ⟨"a", "states", JSVal.num 7⟩).threw = false :=
  onMessage_acks_once ⟨10000, 5, true, false⟩ 0 initState ⟨"a", "states", JSVal.num 7⟩
    (fun hh => JSVal.noConfusion hh)

/-- Claim C10, counterexample: a secondary receiving `objects` with a
`null` payload leaves storage unchanged but also throws before the
acknowledgement, so the reply is not sent (the claim asserts it still
is). -/
theorem objects_null_no_ack :
    (onMessage ⟨10000, 5, true, false⟩ 0 initState ⟨"a", "objects", JSVal.null⟩).ops = []
    ∧ (onMessage ⟨10000, 5, true, false⟩ 0 initState ⟨"a", "objects", JSVal.null⟩).acks = []
    ∧ (onMessage ⟨10000, 5, true, false⟩ 0 initState ⟨"a", "objects", JSVal.null⟩).threw = true := by
  exact ⟨rfl, rfl, rfl⟩

/-- Claim C10, amended: in secondary mode, an `objects` or `states`
message whose payload is not an object, or whose `cmd` field is neither
`'set'` nor `'del'`, or whose `n` field is not a number, performs no
storage operation and is still acknowledged — except a `null` payload,
which performs no storage operation but throws on the `cmd` access, so no
acknowledgement is sent; a well-formed payload with `cmd = 'set'` and
natural count `n` performs exactly the writes `test.0 … test.(n-1)`. -/
theorem secondary_payload_guard (cfg : AdapterConfig) (now : ℚ) (s : BenchState)
    (sender : String) (msg : JSVal) (hsec : cfg.secondaryMode = true) :
    (∀ c, (c = "objects" ∨ c = "states") → msg ≠ JSVal.null →
      (msg.typeofObject = false ∨
        (∀ v, msg.getField "cmd" = .ok v → v.eqStr "set" = false ∧ v.eqStr "del" = false) ∨
        (∀ q : ℚ, msg.getField "n" ≠ .ok (.num q))) →
      (onMessage cfg now s ⟨sender, c, msg⟩).ops = []
        ∧ (onMessage cfg now s ⟨sender, c, msg⟩).acks = [(sender, c)]
        ∧ (onMessage cfg now s ⟨sender, c, msg⟩).threw = false)
    ∧ (∀ c, (c = "objects" ∨ c = "states") →
        (onMessage cfg now s ⟨sender, c, JSVal.null⟩).ops = []
          ∧ (onMessage cfg now s ⟨sender, c, JSVal.null⟩).acks = []
          ∧ (onMessage cfg now s ⟨sender, c, JSVal.null⟩).threw = true)
    ∧ (∀ k : ℕ, msg.getField "cmd" = .ok (.str "set") → msg.getField "n" = .ok (.num ((k : ℚ))) →
        (onMessage cfg now s ⟨sender, "objects", msg⟩).ops
            = (List.range k).map (fun i => StorageOp.setObject ("test." ++ toString i))
          ∧ (onMessage cfg now s ⟨sender, "states", msg⟩).ops
            = (List.range k).map (fun i => StorageOp.setState ("test." ++ toString i) ((i : ℚ)))
          ∧ (onMessage cfg now s ⟨sender, "objects", msg⟩).acks = [(sender, "objects")]
          ∧ (onMessage cfg now s ⟨sender, "states", msg⟩).acks = [(sender, "states")]) := by
  refine ⟨?_, ?_, ?_⟩
  · rintro c hc hnn hmal
    rcases hc with rfl | rfl
    · cases msg with
      | null => exact absurd rfl hnn
      | undefined => simp [onMessage, hsec, JSVal.typeofObject, ackOut]
      | num q => simp [onMessage, hsec, JSVal.typeofObject, ackOut]
      | str t => simp [onMessage, hsec, JSVal.typeofObject, ackOut]
      | boolean b => simp [onMessage, hsec, JSVal.typeofObject, ackOut]
      | arr es => simp [onMessage, hsec, JSVal.typeofObject, JSVal.getField, JSVal.eqStr, ackOut]
      | obj fs =>
        rcases hmal with hm1 | hm2 | hm3
        · simp [JSVal.typeofObject] at hm1
        · obtain ⟨hs, hd⟩ := hm2 ((fs.lookup "cmd").getD .undefined) rfl
          simp [onMessage, hsec, JSVal.typeofObject, JSVal.getField, hs, hd, ackOut]
        · have hnv : ∀ q : ℚ, (fs.lookup "n").getD JSVal.undefined ≠ JSVal.num q := by
            intro q hq
            exact hm3 q (by simp [JSVal.getField, hq])
          simp [onMessage, hsec, JSVal.typeofObject, JSVal.getField, ackOut]
    · cases msg with
      | null => exact absurd rfl hnn
      | undefined => simp [onMessage, hsec, JSVal.typeofObject, ackOut]
      | num q => simp [onMessage, hsec, JSVal.typeofObject, ackOut]
      | str t => simp [onMessage, hsec, JSVal.typeofObject, ackOut]
      | boolean b => simp [onMessage, hsec, JSVal.typeofObject, ackOut]
      | arr es => simp [onMessage, hsec, JSVal.typeofObject, JSVal.getField, JSVal.eqStr, ackOut]
      | obj fs =>
        rcases hmal with hm1 | hm2 | hm3
        · simp [JSVal.typeofObject] at hm1
        · obtain ⟨hs, hd⟩ := hm2 ((fs.lookup "cmd").getD .undefined) rfl
          simp [onMessage, hsec, JSVal.typeofObject, JSVal.getField, hs, hd, ackOut]
        · have hnv : ∀ q : ℚ, (fs.lookup "n").getD JSVal.undefined ≠ JSVal.num q := by
            intro q hq
            exact hm3 q (by simp [JSVal.getField, hq])
          simp [onMessage, hsec, JSVal.typeofObject, JSVal.getField, ackOut]
  · rintro c (rfl | rfl) <;>
      exact ⟨by simp [onMessage, hsec, JSVal.typeofObject, JSVal.getField, throwOut],
        by simp [onMessage, hsec, JSVal.typeofObject, JSVal.getField, throwOut],
        by simp [onMessage, hsec, JSVal.typeofObject, JSVal.getField, throwOut]⟩
  · intro k hcmd hn
    cases msg <;> simp only [JSVal.getField, Except.ok.injEq, reduceCtorEq] at hcmd hn
    case obj fs =>
      refine ⟨?_, ?_, ?_, ?_⟩ <;>
        simp [onMessage, hsec, JSVal.typeofObject, JSVal.getField, hcmd, hn, JSVal.eqStr,
          ackOut, setObjectOps, setStateOps, jsLoopCount_natCast]

/-- Claim C10 amended, witness: a secondary receiving `objects` with the
well-formed payload `{cmd: 'set', n: 5}` performs exactly the writes
`test.0 … test.4` and acknowledges once. -/
theorem secondary_payload_guard_witness :
    (onMessage ⟨10000, 5, true, false⟩ 0 initState
        ⟨"a", "objects", JSVal.obj [("cmd", JSVal.str "set"), ("n", JSVal.num ((5 : ℕ) : ℚ))]⟩).ops
      = (List.range 5).map (fun i => StorageOp.setObject ("test." ++ toString i))
    ∧ (onMessage ⟨10000, 5, true, false⟩ 0 initState
        ⟨"a", "objects", JSVal.obj [("cmd", JSVal.str "set"), ("n", JSVal.num ((5 : ℕ) : ℚ))]⟩).acks
      = [("a", "objects")]
    ∧ (List.range 5).map (fun i => StorageOp.setObject ("test." ++ toString i))
      = [StorageOp.setObject "test.0", StorageOp.setObject "test.1", StorageOp.setObject "test.2",
         StorageOp.setObject "test.3", StorageOp.setObject "test.4"] := by
  have h := (secondary_payload_guard ⟨10000, 5, true, false⟩ 0 initState "a"
      (JSVal.obj [("cmd", JSVal.str "set"), ("n", JSVal.num ((5 : ℕ) : ℚ))]) rfl).2.2 5
      (by rfl) (by rfl)
  exact ⟨h.1, h.2.2.1, by rfl⟩

/-- Claim C9: in isolated-run mode the orchestrator records and disables
exactly the registry rows that are distinct from its own instance and
currently enabled (writing back the row with only `enabled` flipped);
rows that are the benchmark's own instance or already disabled are left
untouched, as is every store entry outside the recorded list; afterwards
the restore pass re-enables exactly the recorded identifiers, reading
each one's current persisted definition (the arbitrary store `st1` as it
is at restore time) immediately before writing it back enabled, and
touches nothing else — in particular never the benchmark's own
instance. -/
theorem isolated_run_instances (own : String) (rows : List (String × InstObj)) (st0 st1 : Store)
    (hnd : (rows.map Prod.fst).Nodup) :
    (disableLoop own rows st0).2
        = (rows.filter fun p => decide (p.1 ≠ own) && isEnabled p.2).map Prod.fst
    ∧ (∀ id v, (id, v) ∈ rows → id ≠ own → isEnabled v = true →
        (disableLoop own rows st0).1 id = some (disableObj v))
    ∧ (∀ id v, (id, v) ∈ rows → id = own ∨ isEnabled v = false →
        (disableLoop own rows st0).1 id = st0 id ∧ id ∉ (disableLoop own rows st0).2)
    ∧ (∀ j, j ∉ (disableLoop own rows st0).2 → (disableLoop own rows st0).1 j = st0 j)
    ∧ own ∉ (disableLoop own rows st0).2
    ∧ (∀ j, j ∉ (disableLoop own rows st0).2 →
        enableLoop (disableLoop own rows st0).2 st1 j = st1 j)
    ∧ (∀ id o c, id ∈ (disableLoop own rows st0).2 → st1 id = some o → o.common = some c →
        enableLoop (disableLoop own rows st0).2 st1 id = some (enableObj o)) := by
  have hids := disableLoop_ids own rows st0
  have hownnot : own ∉ (disableLoop own rows st0).2 := by
    rw [hids]
    intro hmem
    rcases List.mem_map.mp hmem with ⟨p, hp, hfst⟩
    have hflt := List.of_mem_filter hp
    simp only [Bool.and_eq_true, decide_eq_true_eq] at hflt
    exact hflt.1 hfst
  have hidsnd : (disableLoop own rows st0).2.Nodup := by
    rw [hids]
    exact List.Nodup.sublist ((List.filter_sublist rows).map Prod.fst) hnd
  refine ⟨hids, ?_, ?_, ?_, hownnot, ?_, ?_⟩
  · intro id v hmem ho he
    exact disableLoop_disables own rows id v hnd hmem ho he st0
  · intro id v hmem hcase
    have hdis : ¬(id ≠ own ∧ isEnabled v = true) := by
      rintro ⟨hne, htrue⟩
      rcases hcase with h | h
      · exact hne h
      · rw [htrue] at h
        exact Bool.noConfusion h
    exact disableLoop_skips own rows id v hnd hmem hdis st0
  · intro j hj
    exact disableLoop_frame own rows st0 j hj
  · intro j hj
    exact enableLoop_frame _ st1 j hj
  · intro id o c hid hst hc
    exact enableLoop_enables _ st1 id o c hidsnd hid hst hc

/-- Claim C9, witness: a registry with the benchmark's own instance, two
enabled foreign instances `x`, `y` and one already-disabled instance `z`:
exactly `x` and `y` are recorded and disabled, and re-enabling the
recorded list restores `x` to enabled using its then-current stored
object. -/
theorem isolated_run_instances_witness :
    (disableLoop "system.adapter.benchmark.0"
        [("system.adapter.benchmark.0", ⟨some ⟨true, "t"⟩, "n"⟩),
         ("system.adapter.x.0", ⟨some ⟨true, "t"⟩, "n"⟩),
         ("system.adapter.y.0", ⟨some ⟨true, "t"⟩, "n"⟩),
         ("system.adapter.z.0", ⟨some ⟨false, "t"⟩, "n"⟩)] (fun _ => none)).2
      = ["system.adapter.x.0", "system.adapter.y.0"]
    ∧ (disableLoop "system.adapter.benchmark.0"
        [("system.adapter.benchmark.0", ⟨some ⟨true, "t"⟩, "n"⟩),
         ("system.adapter.x.0", ⟨some ⟨true, "t"⟩, "n"⟩),
         ("system.adapter.y.0", ⟨some ⟨true, "t"⟩, "n"⟩),
         ("system.adapter.z.0", ⟨some ⟨false, "t"⟩, "n"⟩)] (fun _ => none)).1
        "system.adapter.x.0" = some ⟨some ⟨false, "t"⟩, "n"⟩
    ∧ enableLoop
        (disableLoop "system.adapter.benchmark.0"
          [("system.adapter.benchmark.0", ⟨some ⟨true, "t"⟩, "n"⟩),
           ("system.adapter.x.0", ⟨some ⟨true, "t"⟩, "n"⟩),
           ("system.adapter.y.0", ⟨some ⟨true, "t"⟩, "n"⟩),
           ("system.adapter.z.0", ⟨some ⟨false, "t"⟩, "n"⟩)] (fun _ => none)).2
        (disableLoop "system.adapter.benchmark.0"
          [("system.adapter.benchmark.0", ⟨some ⟨true, "t"⟩, "n"⟩),
           ("system.adapter.x.0", ⟨some ⟨true, "t"⟩, "n"⟩),
           ("system.adapter.y.0", ⟨some ⟨true, "t"⟩, "n"⟩),
           ("system.adapter.z.0", ⟨some ⟨false, "t"⟩, "n"⟩)] (fun _ => none)).1
        "system.adapter.x.0" = some ⟨some ⟨true, "t"⟩, "n"⟩ := by
  have h := isolated_run_instances "system.adapter.benchmark.0"
    [("system.adapter.benchmark.0", ⟨some ⟨true, "t"⟩, "n"⟩),
     ("system.adapter.x.0", ⟨some ⟨true, "t"⟩, "n"⟩),
     ("system.adapter.y.0", ⟨some ⟨true, "t"⟩, "n"⟩),
     ("system.adapter.z.0", ⟨some ⟨false, "t"⟩, "n"⟩)] (fun _ => none)
    (disableLoop "system.adapter.benchmark.0"
      [("system.adapter.benchmark.0", ⟨some ⟨true, "t"⟩, "n"⟩),
       ("system.adapter.x.0", ⟨some ⟨true, "t"⟩, "n"⟩),
       ("system.adapter.y.0", ⟨some ⟨true, "t"⟩, "n"⟩),
       ("system.adapter.z.0", ⟨some ⟨false, "t"⟩, "n"⟩)] (fun _ => none)).1
    (by decide)
  have hids : (disableLoop "system.adapter.benchmark.0"
      [("system.adapter.benchmark.0", ⟨some ⟨true, "t"⟩, "n"⟩),
       ("system.adapter.x.0", ⟨some ⟨true, "t"⟩, "n"⟩),
       ("system.adapter.y.0", ⟨some ⟨true, "t"⟩, "n"⟩),
       ("system.adapter.z.0", ⟨some ⟨false, "t"⟩, "n"⟩)] (fun _ => none)).2
      = ["system.adapter.x.0", "system.adapter.y.0"] := by
    rw [h.1]
    decide
  have hx := h.2.1 "system.adapter.x.0" ⟨some ⟨true, "t"⟩, "n"⟩
    (by decide) (by decide) (by decide)
  refine ⟨hids, hx, ?_⟩
  exact h.2.2.2.2.2.2 "system.adapter.x.0" ⟨some ⟨false, "t"⟩, "n"⟩ ⟨false, "t"⟩
    (by rw [hids]; decide) hx rfl

/-- Claim C1: in every state reachable by one scheduler run interleaved
with message deliveries and sampler ticks, the ActiveTestMarker equals
the running workload's id while its `execute()` is in flight, equals the
reserved key `'requestedMonitoring'` during a secondary-mode measuring
session, and equals `'none'` at every other point; every enabled step of
the orchestrator and of the message handler preserves this. -/
theorem marker_invariant (cfg : AdapterConfig) (s : BenchState) (h : Reach cfg s) :
    markerInv cfg s := by
  induction h with
  | init =>
    constructor
    · intro id hid
      exact Option.noConfusion hid
    · intro _
      exact ⟨fun hm => Bool.noConfusion hm, fun _ => rfl⟩
  | step hr hen ih =>
    exact markerInv_preserve _ _ _ hen ih

/-- Claim C1, witness: running one `idle` epoch on a primary (enter the
execute window, leave it) reaches a state satisfying the marker
invariant. -/
theorem marker_invariant_witness :
    markerInv ⟨10000, 5, false, false⟩
      (applyOp ⟨10000, 5, false, false⟩
        (applyOp ⟨10000, 5, false, false⟩ initState (SchedOp.beginExecute "idle"))
        SchedOp.endExecute) := by
  apply marker_invariant
  exact Reach.step (Reach.step Reach.init ⟨rfl, rfl, by decide⟩) rfl

end Benchmark
